import Mathlib

/-!
Verification of the account-provisioning flow of a personal-data-server node
(source: packages/pds/src/api/com/atproto/server/createAccount.ts).

The handler is embedded shallowly: database state is an explicit record of
row lists, external collaborators (DID resolver, PLC registry client,
identifier library, external handle resolver, token signer, account store
fault injection) are oracle functions carried in the context record, and the
database transaction is modelled by its interface contract: the body runs on
the current state and its writes are kept only when the body succeeds
(commit); on any error the pre-transaction state is kept (rollback).
External calls and invite-code checks are recorded in an event trace so that
claims about which side effects occur, and where, can be stated.
-/

/-- Errors thrown by the identifier library (not under src; modelled from the
spec: the handle validator fails with InvalidHandle on malformed input,
ReservedHandle on reserved names, UnsupportedDomain when the domain is not
served by the node). -/
inductive IdentErr where
  | invalidHandle (msg : String)
  | reservedHandle (msg : String)
  | unsupportedDomain (msg : String)
  deriving Repr, DecidableEq

/-- Errors visible to the orchestrator. invalidRequest carries the message
and the error name of an InvalidRequestError from the xrpc layer (the error
name defaults to InvalidRequest when the source passes none).
userAlreadyExists is the UserAlreadyExistsError of the account store, and
externalFault stands for any other collaborator or store failure. -/
inductive Err where
  | invalidRequest (msg : String) (code : String)
  | userAlreadyExists
  | identErr (e : IdentErr)
  | externalFault (tag : String)
  deriving Repr, DecidableEq

/-- Resolved atproto data of a DID, as returned by didResolver.resolveAtpData. -/
structure AtpData where
  did : String
  signingKey : String
  handle : String
  pds : String
  deriving Repr, DecidableEq

/-- Document data returned by plcClient.getDocumentData; only the rotation
keys are consulted by the handler. -/
structure DocData where
  rotationKeys : List String
  deriving Repr, DecidableEq

/-- Content of a PLC creation operation as assembled by the mint path. -/
structure PlcParams where
  signingKey : String
  rotationKeys : List String
  handle : String
  pds : String
  deriving Repr, DecidableEq

/-- Result of plc.createOp: the derived DID together with the unsubmitted
creation operation. -/
structure PlcCreate where
  did : String
  op : PlcParams
  deriving Repr, DecidableEq

/-- Row of the invite_code table. -/
structure InviteCodeRow where
  code : String
  disabled : Bool
  availableUses : Nat
  deriving Repr, DecidableEq

/-- Row of the invite_code_use table. -/
structure InviteCodeUseRow where
  code : String
  usedBy : String
  usedAt : String
  deriving Repr, DecidableEq

/-- Row of the account store (modelled from the spec: did, handle, email and
the credential; the store enforces uniqueness of handle and of email). -/
structure AccountRow where
  email : String
  handle : String
  did : String
  password : String
  deriving Repr, DecidableEq

/-- Durable local state touched by the registration transaction. -/
structure DbState where
  inviteCodes : List InviteCodeRow
  inviteCodeUses : List InviteCodeUseRow
  accounts : List AccountRow
  repoRoots : List String
  refreshTokens : List String
  deriving Repr, DecidableEq

/-- Observable side-effect events of one handler run. inviteCheck records
whether the availability check ran inside the transaction and whether the
row lock was requested; the other constructors record outbound collaborator
calls. -/
inductive Event where
  | resolveAtpData (did : String)
  | getDocumentData (did : String)
  | inviteCheck (inTx : Bool) (locked : Bool) (code : String)
  | sendOperation (did : String)
  deriving Repr, DecidableEq

/-- Request body of com.atproto.server.createAccount. -/
structure InputSchema where
  email : String
  password : String
  handle : String
  did : Option String
  inviteCode : Option String
  recoveryKey : Option String
  deriving Repr, DecidableEq

/-- Response body of a successful registration. -/
structure Output where
  handle : String
  did : String
  accessJwt : String
  refreshJwt : String
  deriving Repr, DecidableEq

/-- Ambient context of the handler: node configuration, key identifiers and
the collaborator oracles. identCheck folds the two identifier-library calls
(normalizeAndEnsureValidHandle, ensureHandleServiceConstraints) into one
oracle that either yields the normalized handle or one of the three typed
identifier errors; registerFault injects a non-uniqueness store failure (none
for a healthy store). -/
structure Ctx where
  inviteRequired : Bool
  publicUrl : String
  cfgRecoveryKey : String
  scheme : String
  dialectIsPg : Bool
  repoSigningKeyDid : String
  plcRotationKeyDid : String
  identCheck : String → Except IdentErr String
  resolveExternalHandle : String → String → Option String
  resolveAtpData : String → Except Err AtpData
  getDocumentData : String → Except Err DocData
  createOp : PlcParams → PlcCreate
  sendOperation : String → PlcParams → Except Err Unit
  registerFault : String → String → Option Err
  createAccessToken : String → String
  createRefreshTokenJwt : String → String
  createRefreshTokenPayload : String → String

/-- Embedding of ensureValidHandle. The try body is the identCheck oracle;
the catch arm maps InvalidHandleError, ReservedHandleError and
UnsupportedDomainError exactly as the source does. Note that in the
unsupported-domain arm the source falls through to the final rethrow even
when the external handle resolves to the caller DID: there is no return
statement after the successful comparison, so the original identifier error
is rethrown. -/
def ensureValidHandle (ctx : Ctx) (input : InputSchema) : Except Err String :=
  match ctx.identCheck input.handle with
  | .ok handle => .ok handle
  | .error e =>
    match e with
    | .invalidHandle msg => .error (.invalidRequest msg "InvalidHandle")
    | .reservedHandle msg => .error (.invalidRequest msg "HandleNotAvailable")
    | .unsupportedDomain msg =>
      match input.did with
      | none => .error (.invalidRequest msg "UnsupportedDomain")
      | some d =>
        let resolvedHandleDid := ctx.resolveExternalHandle ctx.scheme input.handle
        if some d ≠ resolvedHandleDid then
          .error (.invalidRequest "External handle did not resolve to DID" "InvalidRequest")
        else
          .error (.identErr (.unsupportedDomain msg))

/-- Model of the startsWith string primitive of the host language (prefix
test on the character sequence), used by the handler to recognize did:plc
DIDs. -/
def strStartsWith (s p : String) : Bool := p.data.isPrefixOf s.data

/-- Validation chain of the adopt path, after canChange has been computed:
signing-key check, handle check, then service-endpoint check, in source
order. The toUpdate record assembled by the source for tolerated mismatches
is dead local state (never read afterwards) and is omitted. -/
def adoptChecks (ctx : Ctx) (didData : AtpData) (handle : String)
    (canChange : Bool) : Except Err (String × Option PlcParams) :=
  if didData.signingKey ≠ ctx.repoSigningKeyDid ∧ canChange = false then
    .error (.invalidRequest
      ("did document signingKey did not match service signingKey: " ++ ctx.repoSigningKeyDid)
      "InvalidDidDoc")
  else if didData.handle ≠ handle ∧ canChange = false then
    .error (.invalidRequest "did document handle did not match requested handle" "InvalidDidDoc")
  else if didData.pds ≠ ctx.publicUrl then
    .error (.invalidRequest
      ("did document AtprotoPersonalDataServer did not match service publicUrl: " ++ ctx.publicUrl)
      "InvalidDidDoc")
  else
    .ok (didData.did, none)

/-- DID acquisition step of the handler: adopt path when the caller supplies
a DID (resolve, compute canChange from the PLC document only for did:plc,
then run the checks), mint path otherwise (assemble the rotation-key list
and format an unsubmitted creation operation). Returns the DID, the pending
operation, and the trace of outbound calls. -/
def resolveDidStep (ctx : Ctx) (input : InputSchema) (handle : String) :
    Except Err (String × Option PlcParams) × List Event :=
  match input.did with
  | some d =>
    match ctx.resolveAtpData d with
    | .error e => (.error e, [.resolveAtpData d])
    | .ok didData =>
      if strStartsWith didData.did "did:plc:" = false then
        (adoptChecks ctx didData handle false, [.resolveAtpData d])
      else
        match ctx.getDocumentData didData.did with
        | .error e => (.error e, [.resolveAtpData d, .getDocumentData didData.did])
        | .ok data =>
          (adoptChecks ctx didData handle (data.rotationKeys.contains ctx.plcRotationKeyDid),
            [.resolveAtpData d, .getDocumentData didData.did])
  | none =>
    let baseKeys := [ctx.cfgRecoveryKey, ctx.plcRotationKeyDid]
    let rotationKeys := match input.recoveryKey with
      | some rk => rk :: baseKeys
      | none => baseKeys
    let plcCreate := ctx.createOp ⟨ctx.repoSigningKeyDid, rotationKeys, handle, ctx.publicUrl⟩
    (.ok (plcCreate.did, some plcCreate.op), [])

/-- Locked invite-availability check inside the transaction: select the
invite row (with forUpdate only on the pg dialect), count the existing use
rows, and fail with InvalidInviteCode when the code is missing, disabled or
exhausted. Emits an inviteCheck event with inTx true. -/
def inviteCheckTx (ctx : Ctx) (inviteCode : Option String) (db : DbState) :
    Except Err Unit × List Event :=
  if ctx.inviteRequired then
    match inviteCode with
    | none => (.error (.invalidRequest "No invite code provided" "InvalidInviteCode"), [])
    | some code =>
      let invite := db.inviteCodes.find? (fun r => r.code == code)
      let useCount := (db.inviteCodeUses.filter (fun u => u.code == code)).length
      let ev := [Event.inviteCheck true ctx.dialectIsPg code]
      match invite with
      | none =>
        (.error (.invalidRequest "Provided invite code not available" "InvalidInviteCode"), ev)
      | some inv =>
        if inv.disabled = true ∨ inv.availableUses ≤ useCount then
          (.error (.invalidRequest "Provided invite code not available" "InvalidInviteCode"), ev)
        else
          (.ok (), ev)
  else
    (.ok (), [])

/-- Modelled from the spec: the account store (services/account, not under
src) enforces uniqueness of handle and of email and fails with
UserAlreadyExistsError on a violation; registerFault injects any other
store failure. On success the account row is appended. -/
def registerUser (ctx : Ctx) (db : DbState) (email handle did password : String) :
    Except Err DbState :=
  match ctx.registerFault email handle with
  | some e => .error e
  | none =>
    if db.accounts.any (fun a => a.handle == handle) ∨ db.accounts.any (fun a => a.email == email) then
      .error .userAlreadyExists
    else
      .ok { db with accounts := db.accounts ++ [⟨email, handle, did, password⟩] }

/-- Modelled from the spec: getAccount of the account store returns the
account row with the given handle when one exists. -/
def getAccount (db : DbState) (handle : String) : Option AccountRow :=
  db.accounts.find? (fun a => a.handle == handle)

/-- Registration step with the disambiguating catch of the orchestrator: a
UserAlreadyExistsError triggers a re-query by handle, yielding a
handle-specific or email-specific already-taken error; any other error
propagates unchanged. -/
def registerUserStep (ctx : Ctx) (db : DbState) (email handle did password : String) :
    Except Err DbState :=
  match registerUser ctx db email handle did password with
  | .ok db1 => .ok db1
  | .error .userAlreadyExists =>
    match getAccount db handle with
    | some _ => .error (.invalidRequest ("Handle already taken: " ++ handle) "InvalidRequest")
    | none => .error (.invalidRequest ("Email already taken: " ++ email) "InvalidRequest")
  | .error e => .error e

/-- Registry submission step: nothing is sent when no creation operation is
pending; otherwise sendOperation is attempted and its failure propagates
(the source logs and rethrows). The outbound call is recorded even on
failure, since the network side effect has happened. -/
def sendOpStep (ctx : Ctx) (did : String) (plcCreateOp : Option PlcParams) :
    Except Err Unit × List Event :=
  match plcCreateOp with
  | none => (.ok (), [])
  | some op =>
    match ctx.sendOperation did op with
    | .error e => (.error e, [.sendOperation did])
    | .ok _ => (.ok (), [.sendOperation did])

/-- Insert of the invite_code_use row, guarded exactly as the source:
inviteRequired and an invite code present. -/
def insertInviteUse (ctx : Ctx) (inviteCode : Option String) (did now : String)
    (db : DbState) : DbState :=
  if ctx.inviteRequired then
    match inviteCode with
    | some code => { db with inviteCodeUses := db.inviteCodeUses ++ [⟨code, did, now⟩] }
    | none => db
  else
    db

/-- Modelled from the spec: createRepo of the repository service (not under
src) initializes the repository root for the DID. -/
def createRepo (db : DbState) (did : String) : DbState :=
  { db with repoRoots := db.repoRoots ++ [did] }

/-- Modelled from the spec: grantRefreshToken durably records the refresh
token payload. -/
def grantRefreshToken (db : DbState) (payload : String) : DbState :=
  { db with refreshTokens := db.refreshTokens ++ [payload] }

/-- Access and refresh JWTs of a successful registration. -/
structure Tokens where
  accessJwt : String
  refreshJwt : String
  deriving Repr, DecidableEq

/-- Body of the registration transaction, in source order: locked invite
check, account registration with disambiguation, registry submission,
invite-use insert, repository-root creation, token minting and refresh-token
grant. Returns the outcome, the state as seen at the end of the body, and
the events emitted by the body. -/
def txBody (ctx : Ctx) (input : InputSchema) (handle did : String)
    (plcCreateOp : Option PlcParams) (now : String) (db : DbState) :
    Except Err Tokens × DbState × List Event :=
  match inviteCheckTx ctx input.inviteCode db with
  | (.error e, ev) => (.error e, db, ev)
  | (.ok _, ev) =>
    match registerUserStep ctx db input.email handle did input.password with
    | .error e => (.error e, db, ev)
    | .ok db1 =>
      match sendOpStep ctx did plcCreateOp with
      | (.error e, ev2) => (.error e, db1, ev ++ ev2)
      | (.ok _, ev2) =>
        let db2 := insertInviteUse ctx input.inviteCode did now db1
        let db3 := createRepo db2 did
        let accessJwt := ctx.createAccessToken did
        let refreshJwt := ctx.createRefreshTokenJwt did
        let db4 := grantRefreshToken db3 (ctx.createRefreshTokenPayload did)
        (.ok ⟨accessJwt, refreshJwt⟩, db4, ev ++ ev2)

/-- Outcome of one full handler run: the response or the error, the durable
database state afterwards, and the event trace. -/
structure RunResult where
  result : Except Err Output
  db : DbState
  events : List Event
  deriving Repr

/-- Embedding of the createAccount handler: handle validation, DID
acquisition, then the registration transaction. The transaction collaborator
commits the body state on success and restores the pre-transaction state on
any error (rollback); events are the outward side effects and survive a
rollback. -/
def createAccount (ctx : Ctx) (input : InputSchema) (now : String)
    (db : DbState) : RunResult :=
  match ensureValidHandle ctx input with
  | .error e => ⟨.error e, db, []⟩
  | .ok handle =>
    match resolveDidStep ctx input handle with
    | (.error e, evA) => ⟨.error e, db, evA⟩
    | (.ok (did, plcCreateOp), evA) =>
      match txBody ctx input handle did plcCreateOp now db with
      | (.error e, _, evB) => ⟨.error e, db, evA ++ evB⟩
      | (.ok toks, db1, evB) =>
        ⟨.ok ⟨handle, did, toks.accessJwt, toks.refreshJwt⟩, db1, evA ++ evB⟩

/-- Sequential execution of a batch of registration attempts, each seeing
the database state left by its predecessors. This serialization is the
interface contract of the row lock of the invite check: transactions racing
on one invite code are serialized (or fail fast) by the store, so any
concurrent schedule is equivalent to some arrival order. -/
def runMany (ctx : Ctx) (now : String) : List InputSchema → DbState →
    List (Except Err Output) × DbState
  | [], db => ([], db)
  | i :: is, db =>
    let r := createAccount ctx i now db
    let (rs, db1) := runMany ctx now is r.db
    (r.result :: rs, db1)

/-- Recognizer for an invite-availability check performed outside any
transaction. -/
def Event.isInviteCheckOutsideTx : Event → Bool
  | .inviteCheck false _ _ => true
  | _ => false

/-- Recognizer for any invite-availability check event. -/
def Event.isInviteCheck : Event → Bool
  | .inviteCheck _ _ _ => true
  | _ => false

/-- Recognizer for a registry submission event. -/
def Event.isSendOp : Event → Bool
  | .sendOperation _ => true
  | _ => false

/-- Recognizer for a PLC document-data lookup event. -/
def Event.isGetDoc : Event → Bool
  | .getDocumentData _ => true
  | _ => false

/-- Recognizer for a successful registration outcome. -/
def resultOk : Except Err Output → Bool
  | .ok _ => true
  | .error _ => false

/-- Error raised for a missing, disabled or exhausted invite code. -/
def inviteUnavailableErr : Err :=
  .invalidRequest "Provided invite code not available" "InvalidInviteCode"

/-- Condition under which the handler treats itself as unauthorized to
change a resolved DID document: the DID is not a did:plc DID, or the PLC
document resolves and its rotation-key list lacks the rotation key of the
node. -/
def CannotChange (ctx : Ctx) (didData : AtpData) : Prop :=
  strStartsWith didData.did "did:plc:" = false ∨
  ∃ doc, ctx.getDocumentData didData.did = .ok doc ∧
    doc.rotationKeys.contains ctx.plcRotationKeyDid = false

/-- Healthy-collaborator assumptions of the invite-exhaustion scenario:
invites are required, the account store raises no fault of its own, and the
registry accepts every submission. -/
def CtxHealthy (ctx : Ctx) : Prop :=
  ctx.inviteRequired = true ∧
  (∀ e h, ctx.registerFault e h = none) ∧
  (∀ d op, ctx.sendOperation d op = .ok ())

/-- Mint-path registration attempt using the given invite code, with a
handle the identifier library accepts unchanged. -/
def MintInput (ctx : Ctx) (code : String) (i : InputSchema) : Prop :=
  i.did = none ∧ i.inviteCode = some code ∧ ctx.identCheck i.handle = .ok i.handle

/-- Freshness of an attempt with respect to the current account table. -/
def FreshFor (db : DbState) (i : InputSchema) : Prop :=
  ∀ a ∈ db.accounts, a.handle ≠ i.handle ∧ a.email ≠ i.email

/-- Pairwise distinctness of the handles and emails of a batch. -/
def DistinctInputs (inputs : List InputSchema) : Prop :=
  (inputs.map InputSchema.handle).Pairwise (fun x y => x ≠ y) ∧
  (inputs.map InputSchema.email).Pairwise (fun x y => x ≠ y)

/-- Invite-code bookkeeping: the code row exists, is enabled, allows n uses,
and u use rows are recorded. -/
def InviteState (db : DbState) (code : String) (n u : Nat) : Prop :=
  db.inviteCodes.find? (fun r => r.code == code) = some ⟨code, false, n⟩ ∧
  (db.inviteCodeUses.filter (fun r => r.code == code)).length = u

/-- Statement of claim C2 as written: when invites are required, every
registration that reaches a successful outcome performed the availability
check once outside any transaction and once inside the transaction with
locking enabled. -/
def claimC2Stmt : Prop :=
  ∀ (ctx : Ctx) (input : InputSchema) (now : String) (db : DbState)
    (code : String) (o : Output),
    ctx.inviteRequired = true →
    input.inviteCode = some code →
    (createAccount ctx input now db).result = .ok o →
    ((createAccount ctx input now db).events.filter Event.isInviteCheckOutsideTx).length = 1 ∧
    ((createAccount ctx input now db).events.filter
      (fun e => Event.isInviteCheck e && !Event.isInviteCheckOutsideTx e)).length = 1

/-- Statement of claim C3 as written: in the adopt path, for every did:plc
DID whose resolved PLC document lacks the rotation key of the node,
registration fails with the IncompatibleDidDoc error (error name
InvalidDidDoc in the source), regardless of whether any other document
field differs from the values of the node. -/
def claimC3Stmt : Prop :=
  ∀ (ctx : Ctx) (input : InputSchema) (now : String) (db : DbState)
    (d : String) (didData : AtpData) (doc : DocData),
    input.did = some d →
    ctx.resolveAtpData d = .ok didData →
    strStartsWith didData.did "did:plc:" = true →
    ctx.getDocumentData didData.did = .ok doc →
    doc.rotationKeys.contains ctx.plcRotationKeyDid = false →
    ∃ msg, (createAccount ctx input now db).result = .error (.invalidRequest msg "InvalidDidDoc")

/-- Statement of claim C4 as written: in the adopt path, a resolved document
whose signing key differs from the repository signing key of the node, or
whose claimed handle differs from the validated handle, always makes
registration fail with the IncompatibleDidDoc error (error name
InvalidDidDoc in the source), with no case in which the mismatch is
accepted. -/
def claimC4Stmt : Prop :=
  ∀ (ctx : Ctx) (input : InputSchema) (now : String) (db : DbState)
    (d : String) (didData : AtpData) (h : String),
    ctx.identCheck input.handle = .ok h →
    input.did = some d →
    ctx.resolveAtpData d = .ok didData →
    (didData.signingKey ≠ ctx.repoSigningKeyDid ∨ didData.handle ≠ h) →
    ∃ msg, (createAccount ctx input now db).result = .error (.invalidRequest msg "InvalidDidDoc")

/-- Baseline healthy context: invites required, pg dialect, identity
normalization, adopt resolution yielding a fully matching document, PLC
document holding the rotation key of the node, and healthy store, registry
and token collaborators. -/
def ctxBase : Ctx :=
  { inviteRequired := true
    publicUrl := "https://pds.example"
    cfgRecoveryKey := "rk-cfg"
    scheme := "https"
    dialectIsPg := true
    repoSigningKeyDid := "sk-node"
    plcRotationKeyDid := "rot-node"
    identCheck := fun h => .ok h
    resolveExternalHandle := fun _ _ => none
    resolveAtpData := fun d => .ok ⟨d, "sk-node", "alice.example", "https://pds.example"⟩
    getDocumentData := fun _ => .ok ⟨["rot-node"]⟩
    createOp := fun p => ⟨"did:plc:minted", p⟩
    sendOperation := fun _ _ => .ok ()
    registerFault := fun _ _ => none
    createAccessToken := fun d => "access-" ++ d
    createRefreshTokenJwt := fun d => "refresh-" ++ d
    createRefreshTokenPayload := fun d => "payload-" ++ d }

/-- Empty database. -/
def dbEmpty : DbState := ⟨[], [], [], [], []⟩

/-- Database holding one enabled invite code with a single remaining use. -/
def dbInvite1 : DbState := ⟨[⟨"code1", false, 1⟩], [], [], [], []⟩

/-- Mint-path attempt of alice using code1. -/
def inpAlice : InputSchema := ⟨"a@x.com", "p", "alice.example", none, some "code1", none⟩

/-- Mint-path attempt of bob using code1. -/
def inpBob : InputSchema := ⟨"b@x.com", "p", "bob.example", none, some "code1", none⟩

/-- Mint-path attempt with no invite code supplied. -/
def inpNoInvite : InputSchema := ⟨"a@x.com", "p", "alice.example", none, none, none⟩

/-- Response of the successful alice registration under ctxBase. -/
def outAlice : Output :=
  ⟨"alice.example", "did:plc:minted", "access-did:plc:minted", "refresh-did:plc:minted"⟩

/-- Baseline context with invites not required. -/
def ctxNoInvite : Ctx := { ctxBase with inviteRequired := false }

/-- Adopt-path context whose PLC document lacks the rotation key of the
node while every document field matches the node. -/
def ctxAdoptNoKey : Ctx :=
  { ctxNoInvite with getDocumentData := fun _ => .ok ⟨["other-rot"]⟩ }

/-- Adopt-path attempt supplying a did:plc DID. -/
def inpAdopt : InputSchema := ⟨"a@x.com", "p", "alice.example", some "did:plc:w", none, none⟩

/-- Adopt-path context whose document carries a foreign signing key while
the PLC document holds the rotation key of the node. -/
def ctxAdoptCanChange : Ctx :=
  { ctxNoInvite with
    resolveAtpData := fun d => .ok ⟨d, "sk-other", "alice.example", "https://pds.example"⟩ }

/-- Adopt-path context whose document carries a foreign signing key and
whose PLC document lacks the rotation key of the node. -/
def ctxAdoptNoKeyMismatch : Ctx :=
  { ctxAdoptNoKey with
    resolveAtpData := fun d => .ok ⟨d, "sk-other", "alice.example", "https://pds.example"⟩ }

/-- Adopt-path context whose document claims a foreign service endpoint
while every other field matches the node. -/
def ctxPdsMismatch : Ctx :=
  { ctxNoInvite with
    resolveAtpData := fun d => .ok ⟨d, "sk-node", "alice.example", "https://other.example"⟩ }

/-- Adopt-path context for a non-plc DID whose document carries a foreign
signing key. -/
def ctxNonPlc : Ctx :=
  { ctxNoInvite with
    resolveAtpData := fun d => .ok ⟨d, "sk-other", "alice.example", "https://pds.example"⟩ }

/-- Adopt-path attempt supplying a did:web DID. -/
def inpAdoptWeb : InputSchema := ⟨"a@x.com", "p", "alice.example", some "did:web:z", none, none⟩

/-- Context whose identifier library reports an unsupported domain and whose
external handle resolver yields did:web:z. -/
def ctxUnsupportedDomain : Ctx :=
  { ctxBase with
    identCheck := fun _ => .error (.unsupportedDomain "unsupported domain")
    resolveExternalHandle := fun _ _ => some "did:web:z" }

/-- External-domain attempt whose caller DID equals the resolved one. -/
def inpExternalMatch : InputSchema :=
  ⟨"a@x.com", "p", "alice.foreign.example", some "did:web:z", none, none⟩

/-- External-domain attempt whose caller DID differs from the resolved one. -/
def inpExternalMismatch : InputSchema :=
  ⟨"a@x.com", "p", "alice.foreign.example", some "did:web:other", none, none⟩

/-- Database already holding the alice account row. -/
def dbTaken : DbState := ⟨[], [], [⟨"a@x.com", "alice.example", "did0", "p0"⟩], [], []⟩

/-- Context whose account store fails with a non-uniqueness fault. -/
def ctxFaulty : Ctx :=
  { ctxBase with registerFault := fun _ _ => some (.externalFault "disk failure") }

instance exceptDecEq (α β : Type) [DecidableEq α] [DecidableEq β] :
    DecidableEq (Except α β) :=
  fun a b =>
    match a, b with
    | .ok x, .ok y =>
      if h : x = y then isTrue (by rw [h]) else isFalse (fun hc => h (Except.ok.inj hc))
    | .ok _, .error _ => isFalse (fun hc => Except.noConfusion hc)
    | .error _, .ok _ => isFalse (fun hc => Except.noConfusion hc)
    | .error x, .error y =>
      if h : x = y then isTrue (by rw [h]) else isFalse (fun hc => h (Except.error.inj hc))

lemma ensureValidHandle_ok (ctx : Ctx) (input : InputSchema) (h : String)
    (hh : ctx.identCheck input.handle = .ok h) :
    ensureValidHandle ctx input = .ok h := by
  simp [ensureValidHandle, hh]

lemma createAccount_db_eq_or_ok (ctx : Ctx) (input : InputSchema) (now : String)
    (db : DbState) :
    (createAccount ctx input now db).db = db ∨
    ∃ o, (createAccount ctx input now db).result = .ok o := by
  unfold createAccount
  rcases hv : ensureValidHandle ctx input with e | handle
  · simp
  · dsimp only
    rcases hr : resolveDidStep ctx input handle with ⟨r, evA⟩
    rcases r with e | ⟨did, op⟩
    · simp
    · dsimp only
      rcases ht : txBody ctx input handle did op now db with ⟨t, db1, evB⟩
      rcases t with e | toks
      · simp
      · exact Or.inr ⟨_, rfl⟩

/-- C1: for every registration that fails at or after the start of the
database transaction (and in fact for every failing registration), the
durable state afterwards holds no new account row, no invite-use row, no
repository root and no refresh-token record: the account, invite-use,
repository-root and refresh-token tables equal their pre-request contents,
because every durable write of the flow happens through the transaction
handle and is kept only on commit. -/
theorem c1_transaction_rollback (ctx : Ctx) (input : InputSchema) (now : String)
    (db : DbState) (e : Err)
    (h : (createAccount ctx input now db).result = .error e) :
    (createAccount ctx input now db).db.accounts = db.accounts ∧
    (createAccount ctx input now db).db.inviteCodeUses = db.inviteCodeUses ∧
    (createAccount ctx input now db).db.repoRoots = db.repoRoots ∧
    (createAccount ctx input now db).db.refreshTokens = db.refreshTokens := by
  rcases createAccount_db_eq_or_ok ctx input now db with hdb | ⟨o, ho⟩
  · rw [hdb]; exact ⟨rfl, rfl, rfl, rfl⟩
  · rw [ho] at h; simp at h

/-- Witness for C1: a registration that fails inside the transaction (invite
required, none provided) leaves every durable table unchanged. -/
theorem c1_transaction_rollback_witness :
    (createAccount ctxBase inpNoInvite "now" dbInvite1).result =
      .error (.invalidRequest "No invite code provided" "InvalidInviteCode") ∧
    ((createAccount ctxBase inpNoInvite "now" dbInvite1).db.accounts = dbInvite1.accounts ∧
     (createAccount ctxBase inpNoInvite "now" dbInvite1).db.inviteCodeUses = dbInvite1.inviteCodeUses ∧
     (createAccount ctxBase inpNoInvite "now" dbInvite1).db.repoRoots = dbInvite1.repoRoots ∧
     (createAccount ctxBase inpNoInvite "now" dbInvite1).db.refreshTokens = dbInvite1.refreshTokens) :=
  ⟨rfl, c1_transaction_rollback ctxBase inpNoInvite "now" dbInvite1 _ rfl⟩

/-- C5: the unsupported-domain arm of handle validation. With a
caller-supplied DID, a delegated resolution that disagrees with the DID
fails with the handle-mismatch error, as the claim says; but when the
delegated resolution yields exactly the caller DID, validation does not
succeed: the missing return statement makes the source rethrow the original
UnsupportedDomainError, so the success half of the claim is contradicted by
the code (a slip, since the comparison is otherwise pointless). -/
theorem c5_external_handle_missing_return :
    ensureValidHandle ctxUnsupportedDomain inpExternalMismatch =
      .error (.invalidRequest "External handle did not resolve to DID" "InvalidRequest") ∧
    ensureValidHandle ctxUnsupportedDomain inpExternalMatch =
      .error (.identErr (.unsupportedDomain "unsupported domain")) := by
  constructor <;> decide

/-- C6: on a uniqueness violation of the account store the orchestrator
re-queries by handle and fails with a handle-specific already-taken error
when an account with the handle exists, with an email-specific one
otherwise; every non-uniqueness store error propagates unchanged. -/
theorem c6_already_taken_disambiguation (ctx : Ctx) :
    (∀ db email handle did pw,
        ctx.registerFault email handle = none →
        db.accounts.any (fun a => a.handle == handle) = true →
        registerUserStep ctx db email handle did pw =
          .error (.invalidRequest ("Handle already taken: " ++ handle) "InvalidRequest")) ∧
    (∀ db email handle did pw,
        ctx.registerFault email handle = none →
        db.accounts.any (fun a => a.handle == handle) = false →
        db.accounts.any (fun a => a.email == email) = true →
        registerUserStep ctx db email handle did pw =
          .error (.invalidRequest ("Email already taken: " ++ email) "InvalidRequest")) ∧
    (∀ db email handle did pw e,
        e ≠ Err.userAlreadyExists →
        ctx.registerFault email handle = some e →
        registerUserStep ctx db email handle did pw = .error e) := by
  refine ⟨?_, ?_, ?_⟩
  · intro db email handle did pw hf hh
    have hru : registerUser ctx db email handle did pw = .error .userAlreadyExists := by
      simp only [registerUser, hf]
      rw [if_pos (Or.inl hh)]
    obtain ⟨a, ha⟩ : ∃ a, getAccount db handle = some a := by
      have hs : (db.accounts.find? (fun a => a.handle == handle)).isSome = true :=
        List.find?_isSome.mpr (List.any_eq_true.mp hh)
      exact Option.isSome_iff_exists.mp hs
    simp only [registerUserStep, hru, getAccount] at *
    rw [ha]
  · intro db email handle did pw hf hh he
    have hru : registerUser ctx db email handle did pw = .error .userAlreadyExists := by
      simp only [registerUser, hf]
      rw [if_pos (Or.inr he)]
    have ha : getAccount db handle = none := by
      unfold getAccount
      exact List.find?_eq_none.mpr (List.any_eq_false.mp hh)
    simp only [registerUserStep, hru, ha]
  · intro db email handle did pw e hne hf
    have hru : registerUser ctx db email handle did pw = .error e := by
      simp only [registerUser, hf]
    cases e with
    | userAlreadyExists => exact absurd rfl hne
    | invalidRequest m c => simp only [registerUserStep, hru]
    | identErr e0 => simp only [registerUserStep, hru]
    | externalFault t => simp only [registerUserStep, hru]

/-- Witness for C6: with alice already registered, a second registration
with the same handle yields the handle-specific message, one with the same
email yields the email-specific message, and a disk fault of the store
propagates unchanged. -/
theorem c6_already_taken_disambiguation_witness :
    registerUserStep ctxBase dbTaken "b@x.com" "alice.example" "did1" "p" =
      .error (.invalidRequest "Handle already taken: alice.example" "InvalidRequest") ∧
    registerUserStep ctxBase dbTaken "a@x.com" "bob.example" "did1" "p" =
      .error (.invalidRequest "Email already taken: a@x.com" "InvalidRequest") ∧
    registerUserStep ctxFaulty dbEmpty "a@x.com" "alice.example" "did1" "p" =
      .error (.externalFault "disk failure") :=
  ⟨(c6_already_taken_disambiguation ctxBase).1 dbTaken "b@x.com" "alice.example" "did1" "p"
      rfl (by decide),
   (c6_already_taken_disambiguation ctxBase).2.1 dbTaken "a@x.com" "bob.example" "did1" "p"
      rfl (by decide) (by decide),
   (c6_already_taken_disambiguation ctxFaulty).2.2 dbEmpty "a@x.com" "alice.example" "did1" "p"
      (.externalFault "disk failure") (by decide) rfl⟩

lemma adoptChecks_mismatch (ctx : Ctx) (didData : AtpData) (handle : String)
    (hmis : didData.signingKey ≠ ctx.repoSigningKeyDid ∨ didData.handle ≠ handle) :
    ∃ msg, adoptChecks ctx didData handle false =
      .error (.invalidRequest msg "InvalidDidDoc") := by
  unfold adoptChecks
  by_cases hs : didData.signingKey = ctx.repoSigningKeyDid
  · have hh : didData.handle ≠ handle := by
      rcases hmis with h | h
      · exact absurd hs h
      · exact h
    refine ⟨"did document handle did not match requested handle", ?_⟩
    rw [if_neg (by simp [hs]), if_pos ⟨hh, rfl⟩]
  · refine ⟨"did document signingKey did not match service signingKey: " ++ ctx.repoSigningKeyDid, ?_⟩
    rw [if_pos ⟨hs, rfl⟩]

lemma adoptChecks_pds (ctx : Ctx) (didData : AtpData) (handle : String) (c : Bool)
    (hsk : didData.signingKey = ctx.repoSigningKeyDid)
    (hha : didData.handle = handle)
    (hpds : didData.pds ≠ ctx.publicUrl) :
    adoptChecks ctx didData handle c =
      .error (.invalidRequest
        ("did document AtprotoPersonalDataServer did not match service publicUrl: " ++ ctx.publicUrl)
        "InvalidDidDoc") := by
  unfold adoptChecks
  rw [if_neg (by simp [hsk]), if_neg (by simp [hha]), if_pos hpds]

lemma adoptChecks_ok (ctx : Ctx) (didData : AtpData) (handle : String) (c : Bool)
    (did : String) (op : Option PlcParams)
    (h : adoptChecks ctx didData handle c = .ok (did, op)) :
    op = none ∧ did = didData.did := by
  unfold adoptChecks at h
  split at h
  · exact absurd h (by simp)
  · split at h
    · exact absurd h (by simp)
    · split at h
      · exact absurd h (by simp)
      · have h2 := Except.ok.inj h
        cases h2
        exact ⟨rfl, rfl⟩

lemma resolveDidStep_adopt_nonplc (ctx : Ctx) (input : InputSchema) (handle : String)
    (d : String) (didData : AtpData)
    (hd : input.did = some d) (hr : ctx.resolveAtpData d = .ok didData)
    (hsw : strStartsWith didData.did "did:plc:" = false) :
    resolveDidStep ctx input handle =
      (adoptChecks ctx didData handle false, [.resolveAtpData d]) := by
  simp [resolveDidStep, hd, hr, hsw]

lemma resolveDidStep_adopt_plc (ctx : Ctx) (input : InputSchema) (handle : String)
    (d : String) (didData : AtpData) (doc : DocData)
    (hd : input.did = some d) (hr : ctx.resolveAtpData d = .ok didData)
    (hsw : strStartsWith didData.did "did:plc:" = true)
    (hdoc : ctx.getDocumentData didData.did = .ok doc) :
    resolveDidStep ctx input handle =
      (adoptChecks ctx didData handle (doc.rotationKeys.contains ctx.plcRotationKeyDid),
        [.resolveAtpData d, .getDocumentData didData.did]) := by
  simp [resolveDidStep, hd, hr, hsw, hdoc]

lemma createAccount_of_resolve_error (ctx : Ctx) (input : InputSchema) (now : String)
    (db : DbState) (h : String) (e : Err) (ev : List Event)
    (hv : ensureValidHandle ctx input = .ok h)
    (hr : resolveDidStep ctx input h = (.error e, ev)) :
    (createAccount ctx input now db).result = .error e := by
  simp [createAccount, hv, hr]

lemma adopt_cannotChange_fails (ctx : Ctx) (input : InputSchema) (now : String)
    (db : DbState) (d : String) (didData : AtpData) (h : String)
    (hh : ctx.identCheck input.handle = .ok h)
    (hd : input.did = some d)
    (hr : ctx.resolveAtpData d = .ok didData)
    (hcc : CannotChange ctx didData)
    (hmis : didData.signingKey ≠ ctx.repoSigningKeyDid ∨ didData.handle ≠ h) :
    ∃ msg, (createAccount ctx input now db).result =
      .error (.invalidRequest msg "InvalidDidDoc") := by
  obtain ⟨msg, hmsg⟩ := adoptChecks_mismatch ctx didData h hmis
  have hv := ensureValidHandle_ok ctx input h hh
  refine ⟨msg, ?_⟩
  cases hb : strStartsWith didData.did "did:plc:" with
  | false =>
    have hstep : resolveDidStep ctx input h =
        (.error (.invalidRequest msg "InvalidDidDoc"), [.resolveAtpData d]) := by
      rw [resolveDidStep_adopt_nonplc ctx input h d didData hd hr hb, hmsg]
    exact createAccount_of_resolve_error ctx input now db h _ _ hv hstep
  | true =>
    rcases hcc with hsw | ⟨doc, hdoc, hkey⟩
    · rw [hb] at hsw
      exact absurd hsw (by simp)
    · have hstep : resolveDidStep ctx input h =
          (.error (.invalidRequest msg "InvalidDidDoc"),
            [.resolveAtpData d, .getDocumentData didData.did]) := by
        rw [resolveDidStep_adopt_plc ctx input h d didData doc hd hr hb hdoc, hkey, hmsg]
      exact createAccount_of_resolve_error ctx input now db h _ _ hv hstep

/-- C3 counterexample: under ctxAdoptNoKey the caller-supplied did:plc DID
resolves to a document matching the node in every field while its PLC
document lacks the rotation key of the node, yet registration succeeds, so
the claim that the rotation key is required regardless of the other fields
is false. -/
theorem c3_counterexample : ¬ claimC3Stmt := by
  intro hc
  obtain ⟨msg, hmsg⟩ := hc ctxAdoptNoKey inpAdopt "now" dbEmpty "did:plc:w"
      ⟨"did:plc:w", "sk-node", "alice.example", "https://pds.example"⟩ ⟨["other-rot"]⟩
      rfl rfl (by decide) rfl (by decide)
  have hok : (createAccount ctxAdoptNoKey inpAdopt "now" dbEmpty).result =
      .ok ⟨"alice.example", "did:plc:w", "access-did:plc:w", "refresh-did:plc:w"⟩ := by decide
  rw [hok] at hmsg
  exact Except.noConfusion hmsg

/-- C3 amended: in the adopt path, a did:plc DID whose PLC document lacks
the rotation key of the node is rejected with the InvalidDidDoc error
exactly when the resolved document requires a change, that is when its
signing key differs from the repository signing key of the node or its
claimed handle differs from the validated handle; when every field already
matches, the missing rotation key is tolerated. -/
theorem c3_rotation_key_required_only_for_changes (ctx : Ctx) (input : InputSchema)
    (now : String) (db : DbState) (d : String) (didData : AtpData) (doc : DocData)
    (h : String)
    (hh : ctx.identCheck input.handle = .ok h)
    (hd : input.did = some d)
    (hr : ctx.resolveAtpData d = .ok didData)
    (_hsw : strStartsWith didData.did "did:plc:" = true)
    (hdoc : ctx.getDocumentData didData.did = .ok doc)
    (hkey : doc.rotationKeys.contains ctx.plcRotationKeyDid = false)
    (hmis : didData.signingKey ≠ ctx.repoSigningKeyDid ∨ didData.handle ≠ h) :
    ∃ msg, (createAccount ctx input now db).result =
      .error (.invalidRequest msg "InvalidDidDoc") :=
  adopt_cannotChange_fails ctx input now db d didData h hh hd hr
    (Or.inr ⟨doc, hdoc, hkey⟩) hmis

/-- Witness for the amended C3: a did:plc document with a foreign signing
key and no node rotation key is rejected with InvalidDidDoc. -/
theorem c3_rotation_key_required_only_for_changes_witness :
    ctxAdoptNoKeyMismatch.resolveAtpData "did:plc:w" =
      .ok ⟨"did:plc:w", "sk-other", "alice.example", "https://pds.example"⟩ ∧
    (∃ msg, (createAccount ctxAdoptNoKeyMismatch inpAdopt "now" dbEmpty).result =
      .error (.invalidRequest msg "InvalidDidDoc")) :=
  ⟨rfl, c3_rotation_key_required_only_for_changes ctxAdoptNoKeyMismatch inpAdopt "now" dbEmpty
    "did:plc:w" ⟨"did:plc:w", "sk-other", "alice.example", "https://pds.example"⟩
    ⟨["other-rot"]⟩ "alice.example" rfl rfl rfl (by decide) rfl (by decide)
    (Or.inl (by decide))⟩

/-- C4 counterexample: under ctxAdoptCanChange the resolved document carries
a foreign signing key, but since the PLC document holds the rotation key of
the node the mismatch is tolerated and registration succeeds, so the claim
that a signing-key mismatch is rejected unconditionally is false. -/
theorem c4_counterexample : ¬ claimC4Stmt := by
  intro hc
  obtain ⟨msg, hmsg⟩ := hc ctxAdoptCanChange inpAdopt "now" dbEmpty "did:plc:w"
      ⟨"did:plc:w", "sk-other", "alice.example", "https://pds.example"⟩ "alice.example"
      rfl rfl rfl (Or.inl (by decide))
  have hok : (createAccount ctxAdoptCanChange inpAdopt "now" dbEmpty).result =
      .ok ⟨"alice.example", "did:plc:w", "access-did:plc:w", "refresh-did:plc:w"⟩ := by decide
  rw [hok] at hmsg
  exact Except.noConfusion hmsg

/-- C4 amended: in the adopt path a mismatched signing key or claimed handle
makes registration fail with the InvalidDidDoc error exactly when the node
is unauthorized to change the document (the DID is not did:plc, or its PLC
document lacks the rotation key of the node); with that authority present
the mismatch is tolerated. -/
theorem c4_mismatch_rejected_only_without_authority (ctx : Ctx) (input : InputSchema)
    (now : String) (db : DbState) (d : String) (didData : AtpData) (h : String)
    (hh : ctx.identCheck input.handle = .ok h)
    (hd : input.did = some d)
    (hr : ctx.resolveAtpData d = .ok didData)
    (hcc : CannotChange ctx didData)
    (hmis : didData.signingKey ≠ ctx.repoSigningKeyDid ∨ didData.handle ≠ h) :
    ∃ msg, (createAccount ctx input now db).result =
      .error (.invalidRequest msg "InvalidDidDoc") :=
  adopt_cannotChange_fails ctx input now db d didData h hh hd hr hcc hmis

/-- Witness for the amended C4: a non-plc DID with a foreign signing key is
rejected with InvalidDidDoc. -/
theorem c4_mismatch_rejected_only_without_authority_witness :
    ctxNonPlc.resolveAtpData "did:web:z" =
      .ok ⟨"did:web:z", "sk-other", "alice.example", "https://pds.example"⟩ ∧
    (∃ msg, (createAccount ctxNonPlc inpAdoptWeb "now" dbEmpty).result =
      .error (.invalidRequest msg "InvalidDidDoc")) :=
  ⟨rfl, c4_mismatch_rejected_only_without_authority ctxNonPlc inpAdoptWeb "now" dbEmpty
    "did:web:z" ⟨"did:web:z", "sk-other", "alice.example", "https://pds.example"⟩
    "alice.example" rfl rfl rfl (Or.inl (by decide)) (Or.inl (by decide))⟩

/-- C7: in the adopt path, a resolved document whose claimed service
endpoint differs from the public URL of the node is always rejected with the
InvalidDidDoc error, even when the signing key and handle match the node and
the PLC document holds the rotation key of the node. -/
theorem c7_pds_mismatch_always_rejected (ctx : Ctx) (input : InputSchema)
    (now : String) (db : DbState) (d : String) (didData : AtpData) (doc : DocData)
    (h : String)
    (hh : ctx.identCheck input.handle = .ok h)
    (hd : input.did = some d)
    (hr : ctx.resolveAtpData d = .ok didData)
    (hsw : strStartsWith didData.did "did:plc:" = true)
    (hdoc : ctx.getDocumentData didData.did = .ok doc)
    (_hkey : doc.rotationKeys.contains ctx.plcRotationKeyDid = true)
    (hsk : didData.signingKey = ctx.repoSigningKeyDid)
    (hha : didData.handle = h)
    (hpds : didData.pds ≠ ctx.publicUrl) :
    (createAccount ctx input now db).result =
      .error (.invalidRequest
        ("did document AtprotoPersonalDataServer did not match service publicUrl: " ++ ctx.publicUrl)
        "InvalidDidDoc") := by
  have hv := ensureValidHandle_ok ctx input h hh
  have hstep : resolveDidStep ctx input h =
      (.error (.invalidRequest
        ("did document AtprotoPersonalDataServer did not match service publicUrl: " ++ ctx.publicUrl)
        "InvalidDidDoc"),
        [.resolveAtpData d, .getDocumentData didData.did]) := by
    rw [resolveDidStep_adopt_plc ctx input h d didData doc hd hr hsw hdoc,
      adoptChecks_pds ctx didData h _ hsk hha hpds]
  exact createAccount_of_resolve_error ctx input now db h _ _ hv hstep

/-- Witness for C7: a document matching the node in signing key, handle and
rotation keys but claiming a foreign endpoint is rejected. -/
theorem c7_pds_mismatch_always_rejected_witness :
    ctxPdsMismatch.resolveAtpData "did:plc:w" =
      .ok ⟨"did:plc:w", "sk-node", "alice.example", "https://other.example"⟩ ∧
    (createAccount ctxPdsMismatch inpAdopt "now" dbEmpty).result =
      .error (.invalidRequest
        ("did document AtprotoPersonalDataServer did not match service publicUrl: " ++ ctxPdsMismatch.publicUrl)
        "InvalidDidDoc") :=
  ⟨rfl, c7_pds_mismatch_always_rejected ctxPdsMismatch inpAdopt "now" dbEmpty
    "did:plc:w" ⟨"did:plc:w", "sk-node", "alice.example", "https://other.example"⟩
    ⟨["rot-node"]⟩ "alice.example" rfl rfl rfl (by decide) rfl (by decide) rfl rfl
    (by decide)⟩

lemma createAccount_events_cases (ctx : Ctx) (input : InputSchema) (now : String)
    (db : DbState) :
    (createAccount ctx input now db).events = [] ∨
    (∃ handle, ensureValidHandle ctx input = .ok handle ∧
      (createAccount ctx input now db).events = (resolveDidStep ctx input handle).2) ∨
    (∃ handle did op, ensureValidHandle ctx input = .ok handle ∧
      (resolveDidStep ctx input handle).1 = .ok (did, op) ∧
      (createAccount ctx input now db).events =
        (resolveDidStep ctx input handle).2 ++ (txBody ctx input handle did op now db).2.2) := by
  unfold createAccount
  rcases hv : ensureValidHandle ctx input with e | handle
  · left; rfl
  · dsimp only
    rcases hr : resolveDidStep ctx input handle with ⟨r, evA⟩
    rcases r with e | ⟨did, op⟩
    · right; left
      refine ⟨handle, rfl, ?_⟩
      rw [hr]
    · dsimp only
      rcases ht : txBody ctx input handle did op now db with ⟨t, db1, evB⟩
      rcases t with e | toks
      · right; right
        refine ⟨handle, did, op, rfl, ?_, ?_⟩
        · rw [hr]
        · rw [hr, ht]
      · right; right
        refine ⟨handle, did, op, rfl, ?_, ?_⟩
        · rw [hr]
        · rw [hr, ht]

lemma resolveDidStep_events_class (ctx : Ctx) (input : InputSchema) (handle : String) :
    ∀ e ∈ (resolveDidStep ctx input handle).2,
      (∃ d2, e = .resolveAtpData d2) ∨ (∃ d2, e = .getDocumentData d2) := by
  intro e he
  unfold resolveDidStep at he
  rcases hd : input.did with _ | d <;> rw [hd] at he <;> dsimp only at he
  · simp at he
  · rcases ha : ctx.resolveAtpData d with er | didData <;> rw [ha] at he <;> dsimp only at he
    · simp at he
      exact Or.inl ⟨d, he⟩
    · by_cases hsw : strStartsWith didData.did "did:plc:" = false
      · rw [if_pos hsw] at he
        simp at he
        exact Or.inl ⟨d, he⟩
      · rw [if_neg hsw] at he
        rcases hdoc : ctx.getDocumentData didData.did with er2 | doc <;> rw [hdoc] at he <;>
          simp at he <;> rcases he with he | he
        · exact Or.inl ⟨d, he⟩
        · exact Or.inr ⟨didData.did, he⟩
        · exact Or.inl ⟨d, he⟩
        · exact Or.inr ⟨didData.did, he⟩

lemma inviteCheckTx_events_shape (ctx : Ctx) (ic : Option String) (db : DbState) :
    (inviteCheckTx ctx ic db).2 = [] ∨
    ∃ c, ic = some c ∧
      (inviteCheckTx ctx ic db).2 = [.inviteCheck true ctx.dialectIsPg c] := by
  unfold inviteCheckTx
  cases hreq : ctx.inviteRequired with
  | false => left; simp
  | true =>
    cases hic : ic with
    | none => left; simp
    | some c =>
      right
      refine ⟨c, rfl, ?_⟩
      rw [if_pos rfl]
      dsimp only
      rcases hf : db.inviteCodes.find? (fun r => r.code == c) with _ | inv <;> rw [hf]
      dsimp only
      split <;> rfl

lemma sendOpStep_events_shape (ctx : Ctx) (did : String) (op : Option PlcParams) :
    (sendOpStep ctx did op).2 = [] ∨ (sendOpStep ctx did op).2 = [.sendOperation did] := by
  unfold sendOpStep
  rcases op with _ | op
  · left; rfl
  · dsimp only
    rcases hs : ctx.sendOperation did op with e | u <;> (right; rfl)

lemma txBody_events_shape (ctx : Ctx) (input : InputSchema) (handle did : String)
    (op : Option PlcParams) (now : String) (db : DbState) :
    (txBody ctx input handle did op now db).2.2 = (inviteCheckTx ctx input.inviteCode db).2 ∨
    (txBody ctx input handle did op now db).2.2 =
      (inviteCheckTx ctx input.inviteCode db).2 ++ (sendOpStep ctx did op).2 := by
  unfold txBody
  rcases hi : inviteCheckTx ctx input.inviteCode db with ⟨ri, evI⟩
  rcases ri with e | u
  · left; rfl
  · dsimp only
    rcases hr2 : registerUserStep ctx db input.email handle did input.password with e | db1
    · left; rfl
    · dsimp only
      rcases hs : sendOpStep ctx did op with ⟨rs, evS⟩
      rcases rs with e | u2
      · right; rfl
      · right; rfl

lemma inviteCheckTx_all_inviteCheck (ctx : Ctx) (ic : Option String) (db : DbState) :
    ∀ e ∈ (inviteCheckTx ctx ic db).2, ∃ c, e = .inviteCheck true ctx.dialectIsPg c := by
  intro e he
  rcases inviteCheckTx_events_shape ctx ic db with h | ⟨c, _, h⟩ <;> rw [h] at he
  · simp at he
  · simp at he
    exact ⟨c, he⟩

lemma txBody_all_inviteCheck_of_none (ctx : Ctx) (input : InputSchema) (handle did : String)
    (now : String) (db : DbState) :
    ∀ e ∈ (txBody ctx input handle did none now db).2.2,
      ∃ c, e = .inviteCheck true ctx.dialectIsPg c := by
  intro e he
  rcases txBody_events_shape ctx input handle did none now db with h | h <;> rw [h] at he
  · exact inviteCheckTx_all_inviteCheck ctx input.inviteCode db e he
  · have hnil : (sendOpStep ctx did none).2 = ([] : List Event) := rfl
    rw [hnil, List.append_nil] at he
    exact inviteCheckTx_all_inviteCheck ctx input.inviteCode db e he

lemma txBody_events_class (ctx : Ctx) (input : InputSchema) (handle did : String)
    (op : Option PlcParams) (now : String) (db : DbState) :
    ∀ e ∈ (txBody ctx input handle did op now db).2.2,
      (∃ c, e = .inviteCheck true ctx.dialectIsPg c) ∨ e = .sendOperation did := by
  intro e he
  rcases txBody_events_shape ctx input handle did op now db with h | h <;> rw [h] at he
  · exact Or.inl (inviteCheckTx_all_inviteCheck ctx input.inviteCode db e he)
  · rcases List.mem_append.mp he with h1 | h2
    · exact Or.inl (inviteCheckTx_all_inviteCheck ctx input.inviteCode db e h1)
    · rcases sendOpStep_events_shape ctx did op with hs | hs <;> rw [hs] at h2
      · simp at h2
      · simp at h2
        exact Or.inr h2

lemma resolveDidStep_op_none_of_adopt (ctx : Ctx) (input : InputSchema)
    (handle d did : String) (op : Option PlcParams)
    (hd : input.did = some d)
    (hr1 : (resolveDidStep ctx input handle).1 = .ok (did, op)) :
    op = none := by
  unfold resolveDidStep at hr1
  rw [hd] at hr1
  dsimp only at hr1
  rcases ha : ctx.resolveAtpData d with e | didData <;> rw [ha] at hr1 <;> dsimp only at hr1
  · simp at hr1
  · by_cases hsw : strStartsWith didData.did "did:plc:" = false
    · rw [if_pos hsw] at hr1
      exact (adoptChecks_ok ctx didData handle false did op hr1).1
    · rw [if_neg hsw] at hr1
      rcases hdoc : ctx.getDocumentData didData.did with e2 | doc <;> rw [hdoc] at hr1 <;>
        dsimp only at hr1
      · simp at hr1
      · exact (adoptChecks_ok ctx didData handle _ did op hr1).1

/-- C9: in the adopt path no operation is ever submitted to the external
identity registry: the pending creation operation stays none, so the
registry-submission step sends nothing and the DID document is left
untouched by this node. -/
theorem c9_adopt_no_registry_submission (ctx : Ctx) (input : InputSchema) (now : String)
    (db : DbState) (d : String) (hd : input.did = some d) :
    (createAccount ctx input now db).events.filter Event.isSendOp = [] := by
  rw [List.filter_eq_nil_iff]
  intro e he
  rcases createAccount_events_cases ctx input now db with hc | ⟨handle, hv, hc⟩ |
      ⟨handle, did2, op, hv, hres, hc⟩ <;> rw [hc] at he
  · simp at he
  · rcases resolveDidStep_events_class ctx input handle e he with ⟨d2, rfl⟩ | ⟨d2, rfl⟩ <;>
      simp [Event.isSendOp]
  · rcases List.mem_append.mp he with h1 | h2
    · rcases resolveDidStep_events_class ctx input handle e h1 with ⟨d2, rfl⟩ | ⟨d2, rfl⟩ <;>
        simp [Event.isSendOp]
    · have hop : op = none := resolveDidStep_op_none_of_adopt ctx input handle d did2 op hd hres
      subst hop
      obtain ⟨c, rfl⟩ := txBody_all_inviteCheck_of_none ctx input handle did2 now db e h2
      simp [Event.isSendOp]

/-- Witness for C9: a concrete adopt-path run emits no registry submission. -/
theorem c9_adopt_no_registry_submission_witness :
    inpAdopt.did = some "did:plc:w" ∧
    (createAccount ctxAdoptNoKey inpAdopt "now" dbEmpty).events.filter Event.isSendOp = [] :=
  ⟨rfl, c9_adopt_no_registry_submission ctxAdoptNoKey inpAdopt "now" dbEmpty "did:plc:w" rfl⟩

/-- C10: for a caller-supplied DID that is not a did:plc DID (assuming the
resolver returns data for the queried DID itself), the handler treats
itself as unauthorized to change the document: the PLC document lookup is
never performed, and when the resolved signing key differs from the
repository signing key of the node or the claimed handle differs from the
validated handle, registration fails with the InvalidDidDoc error. -/
theorem c10_nonplc_no_lookup_strict_match (ctx : Ctx) (input : InputSchema)
    (now : String) (db : DbState) (d : String) (didData : AtpData) (h : String)
    (hh : ctx.identCheck input.handle = .ok h)
    (hd : input.did = some d)
    (hr : ctx.resolveAtpData d = .ok didData)
    (hdid : didData.did = d)
    (hsw : strStartsWith d "did:plc:" = false) :
    (createAccount ctx input now db).events.filter Event.isGetDoc = [] ∧
    ((didData.signingKey ≠ ctx.repoSigningKeyDid ∨ didData.handle ≠ h) →
      ∃ msg, (createAccount ctx input now db).result =
        .error (.invalidRequest msg "InvalidDidDoc")) := by
  have hsw2 : strStartsWith didData.did "did:plc:" = false := by rw [hdid]; exact hsw
  have hv := ensureValidHandle_ok ctx input h hh
  have hstep := resolveDidStep_adopt_nonplc ctx input h d didData hd hr hsw2
  constructor
  · rw [List.filter_eq_nil_iff]
    intro e he
    rcases createAccount_events_cases ctx input now db with hc | ⟨handle, hv2, hc⟩ |
        ⟨handle, did2, op, hv2, hres, hc⟩ <;> rw [hc] at he
    · simp at he
    · have hhandle : handle = h := Except.ok.inj (hv2.symm.trans hv)
      subst hhandle
      rw [hstep] at he
      simp at he
      subst he
      simp [Event.isGetDoc]
    · have hhandle : handle = h := Except.ok.inj (hv2.symm.trans hv)
      subst hhandle
      rcases List.mem_append.mp he with h1 | h2
      · rw [hstep] at h1
        simp at h1
        subst h1
        simp [Event.isGetDoc]
      · rcases txBody_events_class ctx input _ did2 op now db e h2 with ⟨c, rfl⟩ | rfl <;>
          simp [Event.isGetDoc]
  · intro hmis
    exact adopt_cannotChange_fails ctx input now db d didData h hh hd hr (Or.inl hsw2) hmis

/-- Witness for C10: a did:web DID with a foreign signing key is rejected
and no PLC document lookup happens. -/
theorem c10_nonplc_no_lookup_strict_match_witness :
    (createAccount ctxNonPlc inpAdoptWeb "now" dbEmpty).events.filter Event.isGetDoc = [] ∧
    (∃ msg, (createAccount ctxNonPlc inpAdoptWeb "now" dbEmpty).result =
      .error (.invalidRequest msg "InvalidDidDoc")) :=
  ⟨(c10_nonplc_no_lookup_strict_match ctxNonPlc inpAdoptWeb "now" dbEmpty "did:web:z"
      ⟨"did:web:z", "sk-other", "alice.example", "https://pds.example"⟩ "alice.example"
      rfl rfl rfl rfl (by decide)).1,
   (c10_nonplc_no_lookup_strict_match ctxNonPlc inpAdoptWeb "now" dbEmpty "did:web:z"
      ⟨"did:web:z", "sk-other", "alice.example", "https://pds.example"⟩ "alice.example"
      rfl rfl rfl rfl (by decide)).2 (Or.inl (by decide))⟩

lemma filter_inviteCheck_resolveDidStep (ctx : Ctx) (input : InputSchema) (handle : String) :
    (resolveDidStep ctx input handle).2.filter Event.isInviteCheck = [] := by
  rw [List.filter_eq_nil_iff]
  intro e he
  rcases resolveDidStep_events_class ctx input handle e he with ⟨d2, rfl⟩ | ⟨d2, rfl⟩ <;>
    simp [Event.isInviteCheck]

lemma txBody_filter_inviteCheck (ctx : Ctx) (input : InputSchema) (handle did : String)
    (op : Option PlcParams) (now : String) (db : DbState) (code : String)
    (hic : input.inviteCode = some code) :
    (txBody ctx input handle did op now db).2.2.filter Event.isInviteCheck = [] ∨
    (txBody ctx input handle did op now db).2.2.filter Event.isInviteCheck =
      [.inviteCheck true ctx.dialectIsPg code] := by
  have hS : (sendOpStep ctx did op).2.filter Event.isInviteCheck = [] := by
    rcases sendOpStep_events_shape ctx did op with h | h <;> rw [h] <;>
      simp [Event.isInviteCheck]
  have hI : (inviteCheckTx ctx input.inviteCode db).2.filter Event.isInviteCheck = [] ∨
      (inviteCheckTx ctx input.inviteCode db).2.filter Event.isInviteCheck =
        [.inviteCheck true ctx.dialectIsPg code] := by
    rcases inviteCheckTx_events_shape ctx input.inviteCode db with h | ⟨c, hc2, h⟩ <;> rw [h]
    · left; rfl
    · right
      rw [hic] at hc2
      have hcc : c = code := (Option.some.inj hc2).symm
      subst hcc
      simp [Event.isInviteCheck]
  rcases txBody_events_shape ctx input handle did op now db with h | h <;> rw [h]
  · exact hI
  · rw [List.filter_append, hS, List.append_nil]
    exact hI

/-- C2 counterexample: a successful registration under an invite-requiring
context performs no invite-availability check outside the transaction, so
the claim that the check runs twice, once outside any transaction, is false:
the source checks the invite code only once, inside the transaction. -/
theorem c2_counterexample : ¬ claimC2Stmt := by
  intro hc
  have h := hc ctxBase inpAlice "now" dbInvite1 "code1" outAlice rfl rfl rfl
  exact absurd h.1 (by decide)

/-- C2 amended: for every registration carrying an invite code, the
invite-availability check runs at most once, and any check that runs is
inside the registration transaction with the row lock requested exactly
when the dialect is pg; no check ever runs outside the transaction. -/
theorem c2_single_locked_check_inside_tx (ctx : Ctx) (input : InputSchema)
    (now : String) (db : DbState) (code : String)
    (hic : input.inviteCode = some code) :
    (createAccount ctx input now db).events.filter Event.isInviteCheck = [] ∨
    (createAccount ctx input now db).events.filter Event.isInviteCheck =
      [.inviteCheck true ctx.dialectIsPg code] := by
  rcases createAccount_events_cases ctx input now db with hc | ⟨handle, hv, hc⟩ |
      ⟨handle, did2, op, hv, hres, hc⟩ <;> rw [hc]
  · left; rfl
  · left
    exact filter_inviteCheck_resolveDidStep ctx input handle
  · rw [List.filter_append, filter_inviteCheck_resolveDidStep ctx input handle,
      List.nil_append]
    exact txBody_filter_inviteCheck ctx input handle did2 op now db code hic

/-- Witness for the amended C2: the successful alice run checks the invite
code exactly once, inside the transaction, with the lock requested. -/
theorem c2_single_locked_check_inside_tx_witness :
    inpAlice.inviteCode = some "code1" ∧
    ((createAccount ctxBase inpAlice "now" dbInvite1).events.filter Event.isInviteCheck = [] ∨
     (createAccount ctxBase inpAlice "now" dbInvite1).events.filter Event.isInviteCheck =
       [.inviteCheck true ctxBase.dialectIsPg "code1"]) :=
  ⟨rfl, c2_single_locked_check_inside_tx ctxBase inpAlice "now" dbInvite1 "code1" rfl⟩

lemma resolveDidStep_mint (ctx : Ctx) (i : InputSchema) (handle : String)
    (hdid : i.did = none) :
    ∃ pc : PlcCreate, resolveDidStep ctx i handle = (.ok (pc.did, some pc.op), []) := by
  refine ⟨ctx.createOp ⟨ctx.repoSigningKeyDid,
    (match i.recoveryKey with
      | some rk => rk :: [ctx.cfgRecoveryKey, ctx.plcRotationKeyDid]
      | none => [ctx.cfgRecoveryKey, ctx.plcRotationKeyDid]),
    handle, ctx.publicUrl⟩, ?_⟩
  simp [resolveDidStep, hdid]

lemma txBody_success (ctx : Ctx) (i : InputSchema) (handle did : String) (op : PlcParams)
    (now : String) (db : DbState) (code : String) (n u : Nat)
    (hreq : ctx.inviteRequired = true)
    (hic : i.inviteCode = some code)
    (hfind : db.inviteCodes.find? (fun r => r.code == code) = some ⟨code, false, n⟩)
    (hcount : (db.inviteCodeUses.filter (fun r => r.code == code)).length = u)
    (hu : u < n)
    (hfault : ctx.registerFault i.email handle = none)
    (hfH : db.accounts.any (fun a => a.handle == handle) = false)
    (hfE : db.accounts.any (fun a => a.email == i.email) = false)
    (hsend : ctx.sendOperation did op = .ok ()) :
    txBody ctx i handle did (some op) now db =
      (.ok ⟨ctx.createAccessToken did, ctx.createRefreshTokenJwt did⟩,
        ⟨db.inviteCodes, db.inviteCodeUses ++ [⟨code, did, now⟩],
          db.accounts ++ [⟨i.email, handle, did, i.password⟩],
          db.repoRoots ++ [did],
          db.refreshTokens ++ [ctx.createRefreshTokenPayload did]⟩,
        [.inviteCheck true ctx.dialectIsPg code, .sendOperation did]) := by
  have hinv : inviteCheckTx ctx i.inviteCode db =
      (.ok (), [.inviteCheck true ctx.dialectIsPg code]) := by
    unfold inviteCheckTx
    rw [hreq, if_pos rfl, hic]
    dsimp only
    rw [hfind]
    dsimp only
    have hcond : ¬((false = true) ∨
        n ≤ (db.inviteCodeUses.filter (fun u2 => u2.code == code)).length) := by
      rw [hcount]
      simp
      omega
    rw [if_neg hcond]
  have hru : registerUser ctx db i.email handle did i.password =
      .ok { db with accounts := db.accounts ++ [⟨i.email, handle, did, i.password⟩] } := by
    unfold registerUser
    rw [hfault]
    dsimp only
    have hcond2 : ¬(db.accounts.any (fun a => a.handle == handle) = true ∨
        db.accounts.any (fun a => a.email == i.email) = true) := by
      rw [hfH, hfE]
      simp
    rw [if_neg hcond2]
  have hreg : registerUserStep ctx db i.email handle did i.password =
      .ok { db with accounts := db.accounts ++ [⟨i.email, handle, did, i.password⟩] } := by
    simp [registerUserStep, hru]
  have hso : sendOpStep ctx did (some op) = (.ok (), [.sendOperation did]) := by
    simp [sendOpStep, hsend]
  unfold txBody
  rw [hinv]
  dsimp only
  rw [hreg]
  dsimp only
  rw [hso]
  simp [insertInviteUse, createRepo, grantRefreshToken, hreq, hic]

lemma createAccount_mint_success (ctx : Ctx) (i : InputSchema) (now : String)
    (db : DbState) (code : String) (n u : Nat)
    (hreq : ctx.inviteRequired = true)
    (hfault : ctx.registerFault i.email i.handle = none)
    (hsend : ∀ d2 op2, ctx.sendOperation d2 op2 = .ok ())
    (hdid : i.did = none)
    (hic : i.inviteCode = some code)
    (hident : ctx.identCheck i.handle = .ok i.handle)
    (hfind : db.inviteCodes.find? (fun r => r.code == code) = some ⟨code, false, n⟩)
    (hcount : (db.inviteCodeUses.filter (fun r => r.code == code)).length = u)
    (hu : u < n)
    (hfH : db.accounts.any (fun a => a.handle == i.handle) = false)
    (hfE : db.accounts.any (fun a => a.email == i.email) = false) :
    ∃ diw, createAccount ctx i now db =
      ⟨.ok ⟨i.handle, diw, ctx.createAccessToken diw, ctx.createRefreshTokenJwt diw⟩,
        ⟨db.inviteCodes, db.inviteCodeUses ++ [⟨code, diw, now⟩],
          db.accounts ++ [⟨i.email, i.handle, diw, i.password⟩],
          db.repoRoots ++ [diw],
          db.refreshTokens ++ [ctx.createRefreshTokenPayload diw]⟩,
        [.inviteCheck true ctx.dialectIsPg code, .sendOperation diw]⟩ := by
  have hv := ensureValidHandle_ok ctx i i.handle hident
  obtain ⟨pc, hstep⟩ := resolveDidStep_mint ctx i i.handle hdid
  have htx := txBody_success ctx i i.handle pc.did pc.op now db code n u hreq hic hfind
    hcount hu hfault hfH hfE (hsend pc.did pc.op)
  refine ⟨pc.did, ?_⟩
  simp [createAccount, hv, hstep, htx]

lemma createAccount_invite_exhausted (ctx : Ctx) (i : InputSchema) (now : String)
    (db : DbState) (code : String) (n u : Nat)
    (hreq : ctx.inviteRequired = true)
    (hdid : i.did = none)
    (hic : i.inviteCode = some code)
    (hident : ctx.identCheck i.handle = .ok i.handle)
    (hfind : db.inviteCodes.find? (fun r => r.code == code) = some ⟨code, false, n⟩)
    (hcount : (db.inviteCodeUses.filter (fun r => r.code == code)).length = u)
    (hn : n ≤ u) :
    createAccount ctx i now db =
      ⟨.error inviteUnavailableErr, db, [.inviteCheck true ctx.dialectIsPg code]⟩ := by
  have hv := ensureValidHandle_ok ctx i i.handle hident
  obtain ⟨pc, hstep⟩ := resolveDidStep_mint ctx i i.handle hdid
  have hinv : inviteCheckTx ctx i.inviteCode db =
      (.error inviteUnavailableErr, [.inviteCheck true ctx.dialectIsPg code]) := by
    unfold inviteCheckTx
    rw [hreq, if_pos rfl, hic]
    dsimp only
    rw [hfind]
    dsimp only
    have hcond : ((false = true) ∨
        n ≤ (db.inviteCodeUses.filter (fun u2 => u2.code == code)).length) :=
      Or.inr (by rw [hcount]; omega)
    rw [if_pos hcond]
    rfl
  have htx : txBody ctx i i.handle pc.did (some pc.op) now db =
      (.error inviteUnavailableErr, db, [.inviteCheck true ctx.dialectIsPg code]) := by
    unfold txBody
    rw [hinv]
  simp [createAccount, hv, hstep, htx]

lemma freshFor_any_false (db : DbState) (i : InputSchema) (hf : FreshFor db i) :
    db.accounts.any (fun a => a.handle == i.handle) = false ∧
    db.accounts.any (fun a => a.email == i.email) = false := by
  constructor <;> rw [List.any_eq_false] <;> intro a ha
  · simpa using (hf a ha).1
  · simpa using (hf a ha).2

lemma runMany_cons_fst (ctx : Ctx) (now : String) (i : InputSchema)
    (is : List InputSchema) (db : DbState) :
    (runMany ctx now (i :: is) db).1 =
      (createAccount ctx i now db).result ::
        (runMany ctx now is (createAccount ctx i now db).db).1 := by
  rcases h : runMany ctx now is (createAccount ctx i now db).db with ⟨rs, db1⟩
  simp only [runMany]
  rw [h]

lemma runMany_invite_spec (ctx : Ctx) (code : String) (n : Nat) (now : String) :
    ∀ (inputs : List InputSchema) (db : DbState) (u : Nat),
      CtxHealthy ctx →
      (∀ i ∈ inputs, MintInput ctx code i) →
      DistinctInputs inputs →
      (∀ i ∈ inputs, FreshFor db i) →
      InviteState db code n u →
      ((runMany ctx now inputs db).1.countP resultOk = min inputs.length (n - u)) ∧
      (∀ r ∈ (runMany ctx now inputs db).1,
        resultOk r = true ∨ r = .error inviteUnavailableErr) ∧
      (∀ k (hk : k < (runMany ctx now inputs db).1.length),
        resultOk ((runMany ctx now inputs db).1.get ⟨k, hk⟩) = true ↔ k < n - u) := by
  intro inputs
  induction inputs with
  | nil =>
    intro db u _ _ _ _ _
    refine ⟨by simp [runMany], ?_, ?_⟩
    · intro r hr
      simp [runMany] at hr
    · intro k hk
      simp [runMany] at hk
  | cons i is ih =>
    intro db u hctx hmint hdist hfresh hinvst
    obtain ⟨hreq, hfault, hsend⟩ := hctx
    obtain ⟨hdid, hic, hident⟩ := hmint i (List.mem_cons_self i is)
    obtain ⟨hfind, hcount⟩ := hinvst
    have hdistH := hdist.1
    have hdistE := hdist.2
    rw [List.map_cons, List.pairwise_cons] at hdistH hdistE
    have hmint1 : ∀ i2 ∈ is, MintInput ctx code i2 :=
      fun i2 h2 => hmint i2 (List.mem_cons_of_mem i h2)
    have hdist1 : DistinctInputs is := ⟨hdistH.2, hdistE.2⟩
    rw [runMany_cons_fst]
    by_cases hu : u < n
    · obtain ⟨hfH, hfE⟩ := freshFor_any_false db i (hfresh i (List.mem_cons_self i is))
      obtain ⟨diw, hrun⟩ := createAccount_mint_success ctx i now db code n u hreq
        (hfault i.email i.handle) hsend hdid hic hident hfind hcount hu hfH hfE
      have hres : resultOk (createAccount ctx i now db).result = true := by
        rw [hrun]
        rfl
      have hfresh1 : ∀ i2 ∈ is, FreshFor (createAccount ctx i now db).db i2 := by
        intro i2 hi2 a ha
        rw [hrun] at ha
        dsimp only at ha
        rcases List.mem_append.mp ha with ha | ha
        · exact hfresh i2 (List.mem_cons_of_mem i hi2) a ha
        · have ha2 : a = ⟨i.email, i.handle, diw, i.password⟩ := by simpa using ha
          subst ha2
          exact ⟨hdistH.1 i2.handle (List.mem_map_of_mem _ hi2),
            hdistE.1 i2.email (List.mem_map_of_mem _ hi2)⟩
      have hinv1 : InviteState (createAccount ctx i now db).db code n (u + 1) := by
        rw [hrun]
        constructor
        · exact hfind
        · dsimp only
          rw [List.filter_append, List.length_append, hcount]
          simp
      have IH := ih (createAccount ctx i now db).db (u + 1) ⟨hreq, hfault, hsend⟩ hmint1
        hdist1 hfresh1 hinv1
      refine ⟨?_, ?_, ?_⟩
      · rw [List.countP_cons, IH.1, hres, if_pos rfl]
        simp only [List.length_cons]
        omega
      · intro r hr
        rcases List.mem_cons.mp hr with rfl | hr
        · exact Or.inl hres
        · exact IH.2.1 r hr
      · intro k hk
        cases k with
        | zero =>
          constructor
          · intro _
            omega
          · intro _
            exact hres
        | succ k2 =>
          have hk2 : k2 < (runMany ctx now is (createAccount ctx i now db).db).1.length := by
            simp only [List.length_cons] at hk
            omega
          have h3 := IH.2.2 k2 hk2
          rw [show ((createAccount ctx i now db).result ::
              (runMany ctx now is (createAccount ctx i now db).db).1).get ⟨k2 + 1, hk⟩ =
              (runMany ctx now is (createAccount ctx i now db).db).1.get ⟨k2, hk2⟩ from rfl]
          rw [h3]
          omega
    · have hrun := createAccount_invite_exhausted ctx i now db code n u hreq hdid hic hident
        hfind hcount (by omega)
      have hres : (createAccount ctx i now db).result = .error inviteUnavailableErr := by
        rw [hrun]
      have hdb : (createAccount ctx i now db).db = db := by rw [hrun]
      have IH := ih db u ⟨hreq, hfault, hsend⟩ hmint1 hdist1
        (fun i2 h2 => hfresh i2 (List.mem_cons_of_mem i h2)) ⟨hfind, hcount⟩
      rw [hdb]
      refine ⟨?_, ?_, ?_⟩
      · rw [List.countP_cons, IH.1, hres, if_neg (by simp [resultOk])]
        simp only [List.length_cons]
        omega
      · intro r hr
        rcases List.mem_cons.mp hr with rfl | hr
        · exact Or.inr hres
        · exact IH.2.1 r hr
      · intro k hk
        cases k with
        | zero =>
          constructor
          · intro hcontra
            rw [show ((createAccount ctx i now db).result ::
                (runMany ctx now is db).1).get ⟨0, hk⟩ =
                (createAccount ctx i now db).result from rfl, hres] at hcontra
            simp [resultOk] at hcontra
          · intro hcontra
            exact absurd hcontra (by omega)
        | succ k2 =>
          have hk2 : k2 < (runMany ctx now is db).1.length := by
            simp only [List.length_cons] at hk
            omega
          have h3 := IH.2.2 k2 hk2
          rw [show ((createAccount ctx i now db).result ::
              (runMany ctx now is db).1).get ⟨k2 + 1, hk⟩ =
              (runMany ctx now is db).1.get ⟨k2, hk2⟩ from rfl]
          rw [h3]
          omega

/-- C8: for an enabled invite code allowing n uses and any batch of otherwise
valid, pairwise fresh registration attempts using that code, exactly
min(batch length, n) attempts succeed, every failed attempt fails with the
InvalidInviteCode error, and the successes are exactly the first n attempts
in serialization order. The batch is run sequentially: the row lock taken by
the in-transaction check serializes transactions racing on one code (or
fails the losers fast), so every concurrent schedule is equivalent to some
arrival order, and the count is the same for every order. -/
theorem c8_invite_exhaustion (ctx : Ctx) (code : String) (n : Nat) (now : String)
    (inputs : List InputSchema) (db : DbState)
    (h1 : CtxHealthy ctx)
    (h2 : ∀ i ∈ inputs, MintInput ctx code i)
    (h3 : DistinctInputs inputs)
    (h4 : ∀ i ∈ inputs, FreshFor db i)
    (h5 : InviteState db code n 0) :
    ((runMany ctx now inputs db).1.countP resultOk = min inputs.length n) ∧
    (∀ r ∈ (runMany ctx now inputs db).1,
      resultOk r = true ∨ r = .error inviteUnavailableErr) ∧
    (∀ k (hk : k < (runMany ctx now inputs db).1.length),
      resultOk ((runMany ctx now inputs db).1.get ⟨k, hk⟩) = true ↔ k < n) := by
  have h := runMany_invite_spec ctx code n now inputs db 0 h1 h2 h3 h4 h5
  simpa using h

/-- Witness for C8: with one remaining use on code1, of two sequential
registrations exactly one succeeds. -/
theorem c8_invite_exhaustion_witness :
    InviteState dbInvite1 "code1" 1 0 ∧
    (runMany ctxBase "now" [inpAlice, inpBob] dbInvite1).1.countP resultOk = min 2 1 := by
  have h := c8_invite_exhaustion ctxBase "code1" 1 "now" [inpAlice, inpBob] dbInvite1
    ⟨rfl, fun _ _ => rfl, fun _ _ => rfl⟩
    (by
      intro i hi
      rcases List.mem_cons.mp hi with rfl | hi
      · exact ⟨rfl, rfl, rfl⟩
      · rcases List.mem_cons.mp hi with rfl | hi
        · exact ⟨rfl, rfl, rfl⟩
        · simp at hi)
    (by refine ⟨?_, ?_⟩ <;> simp [inpAlice, inpBob])
    (by
      intro i hi a ha
      simp [dbInvite1] at ha)
    ⟨rfl, rfl⟩
  exact ⟨⟨rfl, rfl⟩, h.1⟩
